import Mathlib

/-!
Verification of the measurement and statistics core of `benchmarklib-rs`
(`src/src/benching.rs`, `src/src/lib.rs`).

Modelling conventions:
* A Rust `std::time::Duration` is modelled by its value in nanoseconds (`ℕ`):
  it is a non-negative time span with nanosecond resolution.
* The wall clock is nondeterministic, so every timed code path is parameterised
  by an oracle `elapsed : ℕ → ℕ` giving the raw elapsed nanoseconds of the i-th
  invocation of the benchmarked operation.
* Fallible operations (Rust panics) return `Option`.
* `f64` arithmetic is idealised as exact real arithmetic; the IEEE special cases
  (NaN / infinity from division by zero) that are reachable in the source are
  modelled explicitly where they arise.
-/

namespace Benchmarklib

/-- Rust struct `BenchVec` (benching.rs lines 10-13): a growable vector of `Duration`s,
each duration stored as its nanosecond value. -/
structure BenchVec where
  inner : List ℕ
  deriving DecidableEq

/-- Source `BenchVec::new` (lines 18-21). -/
def BenchVec.new : BenchVec := ⟨[]⟩

/-- Source `BenchVec::from_vec` (lines 23-26). -/
def BenchVec.from_vec (vec : List ℕ) : BenchVec := ⟨vec⟩

/-- Source `BenchVec::push` (lines 28-33). -/
def BenchVec.push (v : BenchVec) (item : ℕ) : BenchVec := ⟨v.inner ++ [item]⟩

/-- Source `BenchVec::append` (lines 35-40): copies the other vector's elements onto
the end of this one. -/
def BenchVec.append (v other : BenchVec) : BenchVec := ⟨v.inner ++ other.inner⟩

/-- Source `BenchVec::len` (lines 42-45). -/
def BenchVec.len (v : BenchVec) : ℕ := v.inner.length

/-- Source `BenchVec::sum` (lines 47-50): a (parallel) reduction with an exact result,
i.e. the sum of the stored nanosecond values. -/
def BenchVec.sum (v : BenchVec) : ℕ := v.inner.sum

/-- Source `BenchVec::average` (lines 52-55): `self.sum() / self.inner.len() as u32`.
The `as u32` cast keeps only the low 32 bits of the `usize` length, and Rust's
`Duration / u32` division panics when the divisor is zero, so the call fails
(modelled as `none`) exactly when `len % 2^32 = 0` — in particular on an empty
vector.  `Duration / u32` truncates to whole nanoseconds, i.e. `Nat` division. -/
def BenchVec.average (v : BenchVec) : Option ℕ :=
  if v.len % 2 ^ 32 = 0 then none else some (v.sum / (v.len % 2 ^ 32))

/-- Source `BenchVec::standard_deviation` (lines 57-60):
`(self.sum().as_nanos() as f64 / (self.len() as f64 - 1f64)).sqrt()`.
The `f64` arithmetic is idealised as real arithmetic. -/
noncomputable def BenchVec.standard_deviation (v : BenchVec) : ℝ :=
  Real.sqrt ((v.sum : ℝ) / ((v.len : ℝ) - 1))

/-- Rust struct `DurationDifference` (lines 94-98): a magnitude plus a sign flag. -/
structure DurationDifference where
  inner : ℕ
  positive : Bool
  deriving DecidableEq

/-- Source `DurationDifference::new` (lines 100-116): computes the two averages (left
first, as in the source), then branches on the strict comparison
`left_avg > right_avg`. -/
def DurationDifference.new (left right : BenchVec) : Option DurationDifference :=
  left.average.bind fun left_avg =>
    right.average.bind fun right_avg =>
      if right_avg < left_avg then some ⟨left_avg - right_avg, true⟩
      else some ⟨right_avg - left_avg, false⟩

/-- Source `BenchVec::compare` (lines 62-77): identical computation to
`DurationDifference::new` with `self` on the left. -/
def BenchVec.compare (v other : BenchVec) : Option DurationDifference :=
  v.average.bind fun avg1 =>
    other.average.bind fun avg2 =>
      if avg2 < avg1 then some ⟨avg1 - avg2, true⟩ else some ⟨avg2 - avg1, false⟩

/-- The adaptive-mode convergence test (line 195):
`(durations.standard_deviation() / durations.average().as_nanos() as f64) < 0.01`.
Under IEEE `f64` semantics the quotient is NaN or `+inf` — and the `< 0.01`
comparison therefore false — whenever the series has fewer than 2 samples
(`standard_deviation` then divides by `len - 1 ≤ 0`, giving NaN or `+inf`) or
the truncated average is zero nanoseconds; the first two conjuncts record
exactly those cases, and in the remaining cases the quotient is an ordinary
non-negative quantity compared exactly.  `average()`'s panic (`len % 2^32 = 0`)
cannot fire at this call site for series shorter than `2^32`, so the averaged
value is simply read off with `getD 0`. -/
def cvBelow (v : BenchVec) : Prop :=
  2 ≤ v.len ∧ 0 < v.average.getD 0 ∧
    v.standard_deviation / (v.average.getD 0 : ℝ) < 0.01

instance cvBelowDec (v : BenchVec) : Decidable (cvBelow v) :=
  decidable_of_iff
    (2 ≤ v.len ∧ 0 < v.average.getD 0 ∧
      10000 * v.sum < (v.len - 1) * (v.average.getD 0) ^ 2)
    (by
      unfold cvBelow
      refine and_congr_right fun hL => and_congr_right fun hA => ?_
      have hA' : (0 : ℝ) < (v.average.getD 0 : ℝ) := by exact_mod_cast hA
      have hL' : (0 : ℝ) < (v.len : ℝ) - 1 := by
        have h2 : (2 : ℝ) ≤ (v.len : ℝ) := by exact_mod_cast hL
        linarith
      have hcast : ((v.len - 1 : ℕ) : ℝ) = (v.len : ℝ) - 1 := by
        have h1 : 1 ≤ v.len := by omega
        rw [Nat.cast_sub h1, Nat.cast_one]
      rw [BenchVec.standard_deviation, div_lt_iff₀ hA',
        Real.sqrt_lt' (by positivity : (0 : ℝ) < 0.01 * (v.average.getD 0 : ℝ)),
        div_lt_iff₀ hL',
        show ((0.01 : ℝ) * (v.average.getD 0 : ℝ)) ^ 2 * ((v.len : ℝ) - 1)
            = ((v.len : ℝ) - 1) * (v.average.getD 0 : ℝ) ^ 2 / 10000 by
          norm_num; ring,
        lt_div_iff₀ (by norm_num : (0 : ℝ) < 10000), ← hcast]
      rw [show (v.sum : ℝ) * 10000 = ((10000 * v.sum : ℕ) : ℝ) by push_cast; ring]
      exact_mod_cast Iff.rfl)

/-- The calibration correction applied to each raw measurement (lines 190-194
and 208-212): `if duration > bench_duration { duration - bench_duration } else
{ duration }`.  The subtraction only runs under the strict guard, so in `ℕ`
(as in Rust `Duration`) it never underflows. -/
def adjust (bench_duration raw : ℕ) : ℕ :=
  if bench_duration < raw then raw - bench_duration else raw

/-- The series of the first `n` corrected samples drawn from the oracle
`elapsed`: sample `i` is `adjust bench_duration (elapsed i)`. -/
def prefixSeries (bench_duration : ℕ) (elapsed : ℕ → ℕ) (n : ℕ) : BenchVec :=
  ⟨(List.range n).map fun i => adjust bench_duration (elapsed i)⟩

/-- The adaptive-mode `while count < self.max_auto_iterations` loop of
`Bencher::bench` (lines 184-201), with the remaining iteration budget
`max_auto_iterations - count` made explicit as `fuel`.  Each pass measures one
invocation, pushes the corrected sample, and breaks when the convergence test
holds and `count > 1`; otherwise `count` is incremented and the loop
continues. -/
def benchAdaptiveGo (bench_duration : ℕ) (elapsed : ℕ → ℕ) :
    ℕ → ℕ → BenchVec → BenchVec
  | 0, _, durations => durations
  | fuel + 1, count, durations =>
    let durations' := durations.push (adjust bench_duration (elapsed count))
    if cvBelow durations' ∧ 1 < count then durations'
    else benchAdaptiveGo bench_duration elapsed fuel (count + 1) durations'

/-- Adaptive mode of `Bencher::bench` (lines 184-202): run the loop starting
from `count = 0` on a fresh `BenchVec`. -/
def benchAdaptive (max_auto_iterations bench_duration : ℕ) (elapsed : ℕ → ℕ) :
    BenchVec :=
  benchAdaptiveGo bench_duration elapsed max_auto_iterations 0 BenchVec.new

/-- Fixed mode of `Bencher::bench` (lines 203-214): `for _ in 0..iterations`,
measuring and pushing one corrected sample per pass. -/
def benchFixedGo (bench_duration : ℕ) (elapsed : ℕ → ℕ) :
    ℕ → ℕ → BenchVec → BenchVec
  | 0, _, durations => durations
  | n + 1, i, durations =>
    benchFixedGo bench_duration elapsed n (i + 1)
      (durations.push (adjust bench_duration (elapsed i)))

/-- Fixed mode entry point: `iterations` passes on a fresh `BenchVec`. -/
def benchFixed (bench_duration : ℕ) (elapsed : ℕ → ℕ) (iterations : ℕ) :
    BenchVec :=
  benchFixedGo bench_duration elapsed iterations 0 BenchVec.new

/-- Rust struct `Bencher` (lines 129-135).  The `BufWriter<File>` sink is modelled as the
list of records buffered so far; each record keeps the benchmark's name and its
finished series (the bytes actually written are the pure rendering
`recordLine` of that data, split out below). -/
structure Bencher where
  measurements : List BenchVec
  iterations : ℕ
  max_auto_iterations : ℕ
  bench_duration : ℕ
  writer : Option (List (String × BenchVec))
  deriving DecidableEq

/-- Source `Bencher::calculate_bench_duration` (lines 148-157): 1000 immediate
`start.elapsed()` readings (values supplied by the oracle `cal`), averaged.
The average of a 1000-element series cannot fail (`1000 % 2^32 ≠ 0`), so its
value is read off with `getD 0`. -/
def calculate_bench_duration (cal : ℕ → ℕ) : ℕ :=
  (BenchVec.from_vec ((List.range 1000).map cal)).average.getD 0

/-- Source `Bencher::new` (lines 138-146). -/
def Bencher.new (cal : ℕ → ℕ) : Bencher :=
  { bench_duration := calculate_bench_duration cal
    measurements := []
    iterations := 100
    max_auto_iterations := 10000
    writer := none }

/-- Source `Bencher::set_iterations` (lines 159-165). -/
def Bencher.set_iterations (b : Bencher) (iterations : ℕ) : Bencher :=
  { b with iterations := iterations }

/-- Source `Bencher::set_max_iterations` (lines 167-171). -/
def Bencher.set_max_iterations (b : Bencher) (iterations : ℕ) : Bencher :=
  { b with max_auto_iterations := iterations }

/-- The series collected by one `Bencher::bench` call (lines 184-214): the
`iterations == 0` test selects adaptive mode, any positive value fixed mode. -/
def Bencher.benchSeries (b : Bencher) (elapsed : ℕ → ℕ) : BenchVec :=
  if b.iterations = 0 then
    benchAdaptive b.max_auto_iterations b.bench_duration elapsed
  else benchFixed b.bench_duration elapsed b.iterations

/-- Source `Bencher::bench` (lines 175-230).  After the measurement loop the source
prints `"Result: {}"` via `Display for BenchVec` (lines 80-92), which calls
`durations.average()` — a panic (modelled as `none`) when the division by
`len as u32` fails, e.g. on an empty series.  Only after that does it append
the record to the file sink (if attached) and push the series into the
history. -/
def Bencher.bench (b : Bencher) (name : String) (elapsed : ℕ → ℕ) :
    Option Bencher :=
  let durations := b.benchSeries elapsed
  match durations.average with
  | none => none
  | some _ =>
    some { b with
      writer := match b.writer with
        | none => none
        | some w => some (w ++ [(name, durations)])
      measurements := b.measurements ++ [durations] }

/-- Source `Bencher::compare` (lines 234-243): with fewer than 2 recorded benchmarks
it does nothing; otherwise it builds the `DurationDifference` of the last and
second-to-last history entries and prints it.  The printed difference is
returned as the first component (`none` = nothing printed); the outer `Option`
is the panic that `DurationDifference::new` can raise.  The `getD` reads model
the always-successful `.get(..).unwrap()` calls at indices `len-1`, `len-2`. -/
def Bencher.compare (b : Bencher) :
    Option (Option DurationDifference × Bencher) :=
  if 1 < b.measurements.length then
    let left := b.measurements.getD (b.measurements.length - 1) BenchVec.new
    let right := b.measurements.getD (b.measurements.length - 2) BenchVec.new
    match DurationDifference.new left right with
    | none => none
    | some diff => some (some diff, b)
  else some (none, b)

/-- Source `Bencher::write_output_to` (lines 270-274): attaches the caller-supplied
sink (its already-buffered records, normally the empty list).  Nothing is
written to the sink at attach time. -/
def Bencher.write_output_to (b : Bencher) (w : List (String × BenchVec)) :
    Bencher :=
  { b with writer := some w }

/-- Source `Bencher::flush` (lines 276-282): flushing makes the buffered records
durable; the durable file contents are returned (`none` when no sink is
attached — the source then returns `Ok(())` without writing anything). -/
def Bencher.flush (b : Bencher) : Option (List (String × BenchVec)) :=
  b.writer

/-- Modelled from the spec: `BENCH_FILE_HEAD`, the file-format head marker
constant.  The repository's test `it_writes_into_files` (lib.rs lines 53-65)
imports `crate::benching::BENCH_FILE_HEAD`, but no such constant is defined
anywhere under `src/`; the spec describes it as "a fixed leading string, e.g.
a column-header line such as `\x22name\tmean\tstddev\n\x22`", which is adopted
here. -/
def BENCH_FILE_HEAD : String := "name\tmean\tstddev\n"

/-- Rust `Duration`'s `Debug` rendering (`"{:?}"`), embedded for the
sub-microsecond range exercised here: a value of `n < 1000` nanoseconds prints
as `"<n>ns"`. -/
def fmtDurationNs (n : ℕ) : String := toString n ++ "ns"

/-- The bytes `Bencher::bench` appends to the file sink per benchmark
(lines 216-226): `format!("{}\t{:?}\t{:.2}ns\n", name, average, stddev)`.
The `{:.2}` rendering of the `f64` standard deviation is passed in as the
string `sd` (for any finite or special `f64` it consists of digits, an
optional dot, sign or the letters of `inf`/`NaN` — never the letter `m`). -/
def recordLine (name : String) (durations : BenchVec) (sd : String) : String :=
  name ++ "\t" ++ fmtDurationNs (durations.average.getD 0) ++ "\t" ++ sd ++ "ns\n"

/-- Predicate: `pat` occurs as a contiguous substring of `s`. -/
def containsStr (pat s : String) : Prop :=
  ∃ l r : List Char, s.toList = l ++ pat.toList ++ r

/-- Stated from the spec's words, for comparison with the source formula: the
textbook sample standard deviation, i.e. the dispersion of the samples around
their mean `sum/len`. -/
noncomputable def dispersionStdDev (v : BenchVec) : ℝ :=
  Real.sqrt
    (((v.inner.map fun d => ((d : ℝ) - (v.sum : ℝ) / (v.len : ℝ)) ^ 2).sum)
      / ((v.len : ℝ) - 1))

/-! Structural lemmas about the measurement loops. -/

theorem prefixSeries_len (bd : ℕ) (e : ℕ → ℕ) (n : ℕ) :
    (prefixSeries bd e n).len = n := by
  simp [prefixSeries, BenchVec.len]

theorem prefixSeries_zero (bd : ℕ) (e : ℕ → ℕ) :
    prefixSeries bd e 0 = BenchVec.new := by
  simp [prefixSeries, BenchVec.new]

theorem prefixSeries_succ (bd : ℕ) (e : ℕ → ℕ) (n : ℕ) :
    prefixSeries bd e (n + 1) = (prefixSeries bd e n).push (adjust bd (e n)) := by
  simp [prefixSeries, BenchVec.push, List.range_succ]

theorem prefixSeries_getD (bd : ℕ) (e : ℕ → ℕ) {i n : ℕ} (h : i < n) :
    (prefixSeries bd e n).inner.getD i 0 = adjust bd (e i) := by
  simp [prefixSeries, List.getD_eq_getElem?_getD, List.getElem?_map,
    List.getElem?_range h]

theorem benchFixedGo_spec (bd : ℕ) (e : ℕ → ℕ) :
    ∀ n i, benchFixedGo bd e n i (prefixSeries bd e i) = prefixSeries bd e (i + n) := by
  intro n
  induction n with
  | zero => intro i; rfl
  | succ n ih =>
    intro i
    rw [benchFixedGo, ← prefixSeries_succ, ih (i + 1)]
    congr 1
    omega

theorem benchFixed_eq (bd : ℕ) (e : ℕ → ℕ) (n : ℕ) :
    benchFixed bd e n = prefixSeries bd e n := by
  have h := benchFixedGo_spec bd e n 0
  rw [prefixSeries_zero] at h
  rw [benchFixed, h]
  congr 1
  omega

theorem benchAdaptiveGo_spec (bd : ℕ) (e : ℕ → ℕ) :
    ∀ fuel count : ℕ,
      ∃ k, benchAdaptiveGo bd e fuel count (prefixSeries bd e count)
            = prefixSeries bd e (count + k)
        ∧ k ≤ fuel
        ∧ (k < fuel → 3 ≤ count + k ∧ cvBelow (prefixSeries bd e (count + k)))
        ∧ ∀ j, count < j → j < count + k →
            ¬(3 ≤ j ∧ cvBelow (prefixSeries bd e j)) := by
  intro fuel
  induction fuel with
  | zero =>
    intro count
    exact ⟨0, rfl, le_refl 0, by omega,
      fun j h1 h2 => absurd h2 (by omega)⟩
  | succ fuel ih =>
    intro count
    have hstep : benchAdaptiveGo bd e (fuel + 1) count (prefixSeries bd e count)
        = if cvBelow (prefixSeries bd e (count + 1)) ∧ 1 < count
          then prefixSeries bd e (count + 1)
          else benchAdaptiveGo bd e fuel (count + 1) (prefixSeries bd e (count + 1)) := by
      rw [benchAdaptiveGo, ← prefixSeries_succ]
    by_cases hc : cvBelow (prefixSeries bd e (count + 1)) ∧ 1 < count
    · refine ⟨1, ?_, by omega, fun _ => ⟨by omega, hc.1⟩,
        fun j h1 h2 => absurd h2 (by omega)⟩
      rw [hstep, if_pos hc]
    · obtain ⟨k', hEq, hle, hbr, hmin⟩ := ih (count + 1)
      refine ⟨k' + 1, ?_, by omega, ?_, ?_⟩
      · rw [hstep, if_neg hc, hEq]
        congr 1
        omega
      · intro hk
        obtain ⟨h3, hcv⟩ := hbr (by omega)
        have hee : count + (k' + 1) = count + 1 + k' := by omega
        rw [hee]
        exact ⟨h3, hcv⟩
      · intro j h1 h2
        by_cases hj : j = count + 1
        · subst hj
          rintro ⟨h3, hcv⟩
          exact hc ⟨hcv, by omega⟩
        · exact hmin j (by omega) (by omega)

theorem benchAdaptive_spec (maxIter bd : ℕ) (e : ℕ → ℕ) :
    benchAdaptive maxIter bd e
        = prefixSeries bd e ((benchAdaptive maxIter bd e).len)
    ∧ (benchAdaptive maxIter bd e).len ≤ maxIter
    ∧ (∀ j, j < (benchAdaptive maxIter bd e).len →
        ¬(3 ≤ j ∧ cvBelow (prefixSeries bd e j)))
    ∧ ((benchAdaptive maxIter bd e).len < maxIter →
        3 ≤ (benchAdaptive maxIter bd e).len
          ∧ cvBelow (prefixSeries bd e ((benchAdaptive maxIter bd e).len))) := by
  obtain ⟨k, hEq, hle, hbr, hmin⟩ := benchAdaptiveGo_spec bd e maxIter 0
  have hres : benchAdaptive maxIter bd e = prefixSeries bd e k := by
    rw [benchAdaptive, ← prefixSeries_zero bd e, hEq]
    congr 1
    omega
  have hlen : (benchAdaptive maxIter bd e).len = k := by
    rw [hres, prefixSeries_len]
  rw [hlen, hres]
  refine ⟨rfl, hle, ?_, ?_⟩
  · intro j hj hcontra
    rcases Nat.eq_zero_or_pos j with h0 | hpos
    · omega
    · exact hmin j (by omega) (by omega) hcontra
  · intro hk
    obtain ⟨h3, hcv⟩ := hbr hk
    exact ⟨by omega, by rw [show k = 0 + k by omega]; exact hcv⟩

theorem benchSeries_sampleForm (b : Bencher) (e : ℕ → ℕ) :
    b.benchSeries e
      = prefixSeries b.bench_duration e ((b.benchSeries e).len) := by
  rw [Bencher.benchSeries]
  split
  · exact (benchAdaptive_spec b.max_auto_iterations b.bench_duration e).1
  · rw [benchFixed_eq, prefixSeries_len]

/-! Claim theorems. -/

/-- Claim C2: in fixed mode (iteration count `N > 0`) `Bencher::bench` runs the
measured operation exactly `N` times — one oracle reading per invocation — and
the fresh series holds exactly `N` samples, the corrected measurements in
order. -/
theorem fixed_mode_exact_samples (b : Bencher) (e : ℕ → ℕ)
    (h : 0 < b.iterations) :
    b.benchSeries e = prefixSeries b.bench_duration e b.iterations
    ∧ (b.benchSeries e).len = b.iterations := by
  rw [Bencher.benchSeries, if_neg (by omega)]
  exact ⟨benchFixed_eq _ _ _, by rw [benchFixed_eq, prefixSeries_len]⟩

/-- Witness for claim C2: a `Bencher` configured for 3 iterations collects
exactly 3 samples. -/
theorem fixed_mode_exact_samples_witness :
    (Bencher.mk [] 3 1000 5 none).benchSeries (fun i => i + 10)
        = prefixSeries 5 (fun i => i + 10) 3
    ∧ ((Bencher.mk [] 3 1000 5 none).benchSeries (fun i => i + 10)).len = 3 :=
  fixed_mode_exact_samples (Bencher.mk [] 3 1000 5 none) (fun i => i + 10)
    (by norm_num)

/-- Claim C5: in both modes every recorded sample is the raw elapsed time minus
the calibration offset when the raw time strictly exceeds the offset, and the
unadjusted raw time otherwise; whenever the subtraction runs it is exact over
`ℤ` (no clamping happened), and the stored sample is never negative. -/
theorem calibration_subtraction_guarded (b : Bencher) (e : ℕ → ℕ) (i : ℕ)
    (h : i < (b.benchSeries e).len) :
    ((b.benchSeries e).inner.getD i 0
        = if b.bench_duration < e i then e i - b.bench_duration else e i)
    ∧ (b.bench_duration < e i →
        (((b.benchSeries e).inner.getD i 0 : ℤ)
          = (e i : ℤ) - (b.bench_duration : ℤ)))
    ∧ (0 : ℤ) ≤ ((b.benchSeries e).inner.getD i 0 : ℤ) := by
  have hg : (b.benchSeries e).inner.getD i 0 = adjust b.bench_duration (e i) := by
    rw [benchSeries_sampleForm]
    exact prefixSeries_getD _ _ h
  refine ⟨by rw [hg]; rfl, ?_, by positivity⟩
  intro hlt
  rw [hg, adjust, if_pos hlt]
  omega

/-- Witness for claim C5: offset 5, raw measurement 7 — the recorded sample is
2, the exact difference. -/
theorem calibration_subtraction_guarded_witness :
    (((Bencher.mk [] 2 1000 5 none).benchSeries (fun _ => 7)).inner.getD 0 0
        = if (5 : ℕ) < 7 then 7 - 5 else 7)
    ∧ ((5 : ℕ) < 7 →
        ((((Bencher.mk [] 2 1000 5 none).benchSeries (fun _ => 7)).inner.getD 0 0 : ℤ)
          = (7 : ℤ) - 5))
    ∧ (0 : ℤ) ≤ (((Bencher.mk [] 2 1000 5 none).benchSeries (fun _ => 7)).inner.getD 0 0 : ℤ) :=
  calibration_subtraction_guarded (Bencher.mk [] 2 1000 5 none) (fun _ => 7) 0
    (by decide)

/-- Claim C6: `BenchVec::average` on an empty series fails — `Duration / u32`
division by a zero divisor panics, modelled as `none` — and never silently
returns a numeric value. -/
theorem average_empty_series_fails (v : BenchVec) (h : v.len = 0) :
    v.average = none := by
  simp [BenchVec.average, h]

/-- Witness for claim C6: the freshly created empty `BenchVec`. -/
theorem average_empty_series_fails_witness : BenchVec.new.average = none :=
  average_empty_series_fails BenchVec.new rfl

/-- Claim C8: `Bencher::compare` with fewer than 2 recorded benchmark series
prints nothing and returns the `Bencher` completely unchanged — history,
iteration settings, calibration offset and sink included. -/
theorem compare_below_two_is_noop (b : Bencher)
    (h : b.measurements.length < 2) :
    b.compare = some (none, b) := by
  rw [Bencher.compare, if_neg (by omega)]

/-- Witness for claim C8: a `Bencher` with an empty history. -/
theorem compare_below_two_is_noop_witness :
    (Bencher.mk [] 100 10000 0 none).compare
      = some (none, Bencher.mk [] 100 10000 0 none) :=
  compare_below_two_is_noop (Bencher.mk [] 100 10000 0 none) (by norm_num)

/-- Claim C9: whenever the adaptive loop stops before exhausting the cap (that
is, via the convergence break rather than the `count < max_auto_iterations`
bound), the series holds at least 3 samples: the `count > 1` guard is read
before `count` is incremented, so the earliest possible break is on the third
pass. -/
theorem early_stop_has_three_samples (maxIter bd : ℕ) (e : ℕ → ℕ)
    (h : (benchAdaptive maxIter bd e).len < maxIter) :
    3 ≤ (benchAdaptive maxIter bd e).len :=
  ((benchAdaptive_spec maxIter bd e).2.2.2 h).1

/-- Witness for claim C9: constant 40000 ns measurements with cap 5 stop after
exactly 3 samples. -/
theorem early_stop_has_three_samples_witness :
    3 ≤ (benchAdaptive 5 0 (fun _ => 40000)).len :=
  early_stop_has_three_samples 5 0 (fun _ => 40000) (by decide)

/-- Claim C10: with adaptive mode selected (`iterations == 0`) and a cap of 0,
`Bencher::bench` collects no samples at all and then fails — rendering the
result calls `average()` on the empty series, a `Duration` division by zero —
so `bench` silently assumes the adaptive cap is at least 1. -/
theorem adaptive_cap_zero_panics (b : Bencher) (name : String) (e : ℕ → ℕ)
    (h0 : b.iterations = 0) (hm : b.max_auto_iterations = 0) :
    b.benchSeries e = BenchVec.new ∧ b.bench name e = none := by
  have hs : b.benchSeries e = BenchVec.new := by
    rw [Bencher.benchSeries, if_pos h0, hm]
    rfl
  refine ⟨hs, ?_⟩
  simp [Bencher.bench, hs, BenchVec.average, BenchVec.new, BenchVec.len]

/-- Witness for claim C10: a concrete adaptive-mode `Bencher` with cap 0. -/
theorem adaptive_cap_zero_panics_witness :
    (Bencher.mk [] 0 0 7 none).benchSeries (fun _ => 50) = BenchVec.new
    ∧ (Bencher.mk [] 0 0 7 none).bench "x" (fun _ => 50) = none :=
  adaptive_cap_zero_panics (Bencher.mk [] 0 0 7 none) "x" (fun _ => 50) rfl rfl

/-- Claim C1, counterexample to the claim as stated.  Two parts of the claim
fail on the code: (a) with cap `max_auto_iterations = 1` the adaptive run
collects a single sample, not "between 2 and the cap"; (b) with constant
40000 ns measurements the coefficient of variation is already below 0.01 at the
check with 2 samples collected, yet the loop does not stop there — the
`count > 1` guard makes it run a third pass (3 samples), so the loop does not
stop "immediately after the first check where the coefficient drops below 0.01
while at least 2 samples have been collected". -/
theorem adaptive_claim_counterexample :
    (benchAdaptive 1 0 (fun _ => 0)).len = 1
    ∧ cvBelow (prefixSeries 0 (fun _ => 40000) 2)
    ∧ (benchAdaptive 5 0 (fun _ => 40000)).len = 3 := by
  decide

/-- Claim C1 as amended: for an adaptive run with cap at least 2 (and below
`2^32`, past which the `len as u32` cast lets the in-loop `average()` call
panic), the number of samples is between 2 and the cap inclusive, the series is
exactly the corrected sample prefix of its length, no strictly earlier check
satisfied the break condition (coefficient of variation below 0.01 **and**
loop counter above 1, i.e. at least 3 samples), and a stop before the cap
happens exactly at the first check satisfying that condition; otherwise the
loop keeps whatever samples were collected when the cap was reached. -/
theorem adaptive_run_characterization (maxIter bd : ℕ) (e : ℕ → ℕ)
    (h2 : 2 ≤ maxIter) (h32 : maxIter < 2 ^ 32) :
    2 ≤ (benchAdaptive maxIter bd e).len
    ∧ (benchAdaptive maxIter bd e).len ≤ maxIter
    ∧ benchAdaptive maxIter bd e
        = prefixSeries bd e ((benchAdaptive maxIter bd e).len)
    ∧ (∀ j, j < (benchAdaptive maxIter bd e).len →
        ¬(3 ≤ j ∧ cvBelow (prefixSeries bd e j)))
    ∧ ((benchAdaptive maxIter bd e).len < maxIter →
        3 ≤ (benchAdaptive maxIter bd e).len
          ∧ cvBelow (prefixSeries bd e ((benchAdaptive maxIter bd e).len))) := by
  obtain ⟨hpre, hle, hmin, hbr⟩ := benchAdaptive_spec maxIter bd e
  refine ⟨?_, hle, hpre, hmin, hbr⟩
  rcases Nat.lt_or_ge (benchAdaptive maxIter bd e).len maxIter with hlt | hge
  · have h3 := (hbr hlt).1
    omega
  · omega

/-- Witness for claim C1 (amended): cap 2 with all-zero measurements — the run
collects exactly 2 samples (the zero average keeps the `f64` convergence test
false, so the cap is what stops it). -/
theorem adaptive_run_characterization_witness :
    2 ≤ (benchAdaptive 2 0 (fun _ => 0)).len
    ∧ (benchAdaptive 2 0 (fun _ => 0)).len ≤ 2
    ∧ benchAdaptive 2 0 (fun _ => 0)
        = prefixSeries 0 (fun _ => 0) ((benchAdaptive 2 0 (fun _ => 0)).len)
    ∧ (∀ j, j < (benchAdaptive 2 0 (fun _ => 0)).len →
        ¬(3 ≤ j ∧ cvBelow (prefixSeries 0 (fun _ => 0) j)))
    ∧ ((benchAdaptive 2 0 (fun _ => 0)).len < 2 →
        3 ≤ (benchAdaptive 2 0 (fun _ => 0)).len
          ∧ cvBelow (prefixSeries 0 (fun _ => 0) ((benchAdaptive 2 0 (fun _ => 0)).len))) :=
  adaptive_run_characterization 2 0 (fun _ => 0) (by norm_num) (by norm_num)

/-- Claim C3, counterexample to the claim as stated: a non-empty series of
length `2^32` (the `len as u32` cast truncates to 0) makes
`DurationDifference::new` panic in `average()` instead of yielding any
magnitude and sign. -/
theorem nonempty_compare_counterexample :
    0 < (BenchVec.from_vec (List.replicate (2 ^ 32) 1)).len
    ∧ DurationDifference.new (BenchVec.from_vec (List.replicate (2 ^ 32) 1))
        (BenchVec.from_vec (List.replicate (2 ^ 32) 1)) = none := by
  have hlen : (BenchVec.from_vec (List.replicate (2 ^ 32) 1)).len = 2 ^ 32 := by
    rw [BenchVec.from_vec, BenchVec.len]
    exact List.length_replicate _ _
  constructor
  · rw [hlen]
    positivity
  · have havg : (BenchVec.from_vec (List.replicate (2 ^ 32) 1)).average = none := by
      rw [BenchVec.average, if_pos]
      rw [hlen, Nat.mod_self]
    rw [DurationDifference.new, havg]
    rfl

/-- Claim C3 as amended: for every pair of series whose averages are defined
(non-empty and length not a multiple of `2^32`, where the `len as u32` cast
would panic), `BenchVec::compare` agrees with `DurationDifference::new`, the
produced magnitude is the absolute difference of the two truncated means, and
the sign flag is true exactly when the left mean strictly exceeds the right one
(ties take the negative branch); `Bencher::compare` with at least 2 recorded
benchmarks applies this to the last (left) and second-to-last (right) history
entries, so the sign is positive iff the last mean strictly exceeds the
second-to-last mean. -/
theorem compare_mean_difference :
    (∀ a b : BenchVec, a.compare b = DurationDifference.new a b)
    ∧ (∀ (a b : BenchVec) (x y : ℕ), a.average = some x → b.average = some y →
        ∃ d, DurationDifference.new a b = some d
          ∧ (d.inner : ℤ) = |(x : ℤ) - (y : ℤ)|
          ∧ (d.positive = true ↔ y < x))
    ∧ (∀ (B : Bencher) (x y : ℕ), 2 ≤ B.measurements.length →
        (B.measurements.getD (B.measurements.length - 1) BenchVec.new).average
          = some x →
        (B.measurements.getD (B.measurements.length - 2) BenchVec.new).average
          = some y →
        ∃ d, B.compare = some (some d, B)
          ∧ (d.inner : ℤ) = |(x : ℤ) - (y : ℤ)|
          ∧ (d.positive = true ↔ y < x)) := by
  have hnew : ∀ (a b : BenchVec) (x y : ℕ),
      a.average = some x → b.average = some y →
      ∃ d, DurationDifference.new a b = some d
        ∧ (d.inner : ℤ) = |(x : ℤ) - (y : ℤ)|
        ∧ (d.positive = true ↔ y < x) := by
    intro a b x y hx hy
    rw [DurationDifference.new, hx, hy]
    simp only [Option.some_bind]
    by_cases hlt : y < x
    · refine ⟨⟨x - y, true⟩, by rw [if_pos hlt], ?_, by simp [hlt]⟩
      show ((x - y : ℕ) : ℤ) = |(x : ℤ) - (y : ℤ)|
      rw [abs_of_pos (by omega : (0 : ℤ) < (x : ℤ) - (y : ℤ))]
      omega
    · refine ⟨⟨y - x, false⟩, by rw [if_neg hlt], ?_, by simp [hlt]⟩
      show ((y - x : ℕ) : ℤ) = |(x : ℤ) - (y : ℤ)|
      rw [abs_of_nonpos (by omega : (x : ℤ) - (y : ℤ) ≤ 0)]
      omega
  refine ⟨fun a b => rfl, hnew, ?_⟩
  intro B x y hlen hx hy
  obtain ⟨d, hd, hmag, hsign⟩ := hnew _ _ x y hx hy
  refine ⟨d, ?_, hmag, hsign⟩
  rw [Bencher.compare, if_pos (show 1 < B.measurements.length by omega)]
  simp only [hd]

/-- Witness for claim C3: singleton series with means 4 and 2 — the difference
is 2 with positive sign — and a two-entry history compared the same way. -/
theorem compare_mean_difference_witness :
    (∃ d, DurationDifference.new (BenchVec.from_vec [4]) (BenchVec.from_vec [2])
        = some d
      ∧ (d.inner : ℤ) = |(4 : ℤ) - (2 : ℤ)| ∧ (d.positive = true ↔ 2 < 4))
    ∧ (∃ d, (Bencher.mk [BenchVec.from_vec [2], BenchVec.from_vec [4]]
          100 10000 0 none).compare
        = some (some d,
            Bencher.mk [BenchVec.from_vec [2], BenchVec.from_vec [4]]
              100 10000 0 none)
      ∧ (d.inner : ℤ) = |(4 : ℤ) - (2 : ℤ)| ∧ (d.positive = true ↔ 2 < 4)) :=
  ⟨compare_mean_difference.2.1 (BenchVec.from_vec [4]) (BenchVec.from_vec [2])
      4 2 (by decide) (by decide),
    compare_mean_difference.2.2
      (Bencher.mk [BenchVec.from_vec [2], BenchVec.from_vec [4]] 100 10000 0 none)
      4 2 (by norm_num) (by decide) (by decide)⟩

/-- Claim C4: `standard_deviation()` equals the square root of the series'
total nanoseconds divided by `len - 1`, and is in particular not a measure of
dispersion of the samples around their mean: the constant series `[5, 5]` has
zero dispersion around its mean (its textbook sample standard deviation is 0)
yet a non-zero `standard_deviation`. -/
theorem stddev_formula_not_dispersion :
    (∀ v : BenchVec,
      v.standard_deviation = Real.sqrt ((v.sum : ℝ) / ((v.len : ℝ) - 1)))
    ∧ dispersionStdDev (BenchVec.from_vec [5, 5]) = 0
    ∧ BenchVec.standard_deviation (BenchVec.from_vec [5, 5])
        ≠ dispersionStdDev (BenchVec.from_vec [5, 5]) := by
  have hs : (BenchVec.from_vec [5, 5]).sum = 10 := rfl
  have hl : (BenchVec.from_vec [5, 5]).len = 2 := rfl
  have hi : (BenchVec.from_vec [5, 5]).inner = [5, 5] := rfl
  have hdisp : dispersionStdDev (BenchVec.from_vec [5, 5]) = 0 := by
    rw [dispersionStdDev, hs, hl, hi]
    norm_num
  have hsd : BenchVec.standard_deviation (BenchVec.from_vec [5, 5])
      = Real.sqrt 10 := by
    rw [BenchVec.standard_deviation, hs, hl]
    norm_num
  refine ⟨fun v => rfl, hdisp, ?_⟩
  rw [hdisp, hsd]
  exact (Real.sqrt_pos.mpr (by norm_num)).ne'

/-- Claim C7 (a code bug): the library source defines no file-format head
marker at all — the test `it_writes_into_files` (lib.rs lines 53-65) imports
`crate::benching::BENCH_FILE_HEAD`, which exists nowhere in
`src/src/benching.rs`, and neither `write_output_to` nor `bench` ever writes a
header.  Modelling the constant from the spec's example: after attaching a
sink, running one `bench` and flushing, the durable file holds exactly one
record line, and that line — whatever digits-and-dot text `sd` the `{:.2}`
float formatting produced for the standard deviation (no `f64` rendering
contains the letter `m`) — does not contain the head marker, contradicting the
test's `contents.contains(BENCH_FILE_HEAD)` assertion. -/
theorem file_sink_lacks_head_marker (sd : String) (hm : 'm' ∉ sd.toList) :
    (∃ b', (Bencher.write_output_to (Bencher.mk [] 2 1000 0 none) []).bench
          "closure" (fun _ => 50) = some b'
        ∧ b'.flush = some [("closure", prefixSeries 0 (fun _ => 50) 2)])
    ∧ ¬ containsStr BENCH_FILE_HEAD
        (recordLine "closure" (prefixSeries 0 (fun _ => 50) 2) sd) := by
  constructor
  · refine ⟨Bencher.mk [prefixSeries 0 (fun _ => 50) 2] 2 1000 0
        (some [("closure", prefixSeries 0 (fun _ => 50) 2)]), ?_, rfl⟩
    decide
  · rintro ⟨l, r, heq⟩
    have hmem : 'm' ∈ (recordLine "closure" (prefixSeries 0 (fun _ => 50) 2) sd).toList := by
      rw [heq]
      exact List.mem_append.mpr (Or.inl (List.mem_append.mpr (Or.inr (by decide))))
    simp only [recordLine, fmtDurationNs, String.toList, String.data_append,
      List.mem_append] at hmem
    rcases hmem with ((((h | h) | h) | h) | h)
    · exact absurd h (by decide)
    · exact absurd h (by decide)
    · exact absurd h (by decide)
    · exact hm h
    · exact absurd h (by decide)

/-- Witness for claim C7: the standard-deviation text `"10.00"`, which is what
`{:.2}` prints for this run's exact standard deviation `sqrt(100/(2-1)) = 10`. -/
theorem file_sink_lacks_head_marker_witness :
    (∃ b', (Bencher.write_output_to (Bencher.mk [] 2 1000 0 none) []).bench
          "closure" (fun _ => 50) = some b'
        ∧ b'.flush = some [("closure", prefixSeries 0 (fun _ => 50) 2)])
    ∧ ¬ containsStr BENCH_FILE_HEAD
        (recordLine "closure" (prefixSeries 0 (fun _ => 50) 2) "10.00") :=
  file_sink_lacks_head_marker "10.00" (by decide)

end Benchmarklib
